import Mathlib

/-!
Verification of the py-caskdb key-value store (files `format.py` and
`disk_store.py`) against its natural-language specification.

Modelling conventions:
* Python `bytes` are `List Nat` with entries below 256 (written `Bytes`).
* Python `str` is a sequence of Unicode code points, modelled as `List Nat`
  (written `PyStr`); `len` of a Python string is the code-point count.
* `str.encode()` / `bytes.decode()` are the strict UTF-8 codec; failures are
  the Python exceptions `UnicodeEncodeError` / `UnicodeDecodeError`.
* `struct.pack("III", ...)` packs three unsigned 32-bit integers with no
  padding in the host byte order; we fix little-endian (the order on the
  x86-64 hosts the program runs on).  All properties proved here are
  independent of that choice as long as pack and unpack agree.
* Fallible Python code is modelled with `Except PyError`.
-/

/-- Error classes raised by the Python code, plus the error classes that the
specification names but the source never defines (`MalformedHeaderError`,
`InvalidEncodingError`, `CorruptStoreError`).  Modelled from the spec: those
three constructors exist only so that the specification claims mentioning
them can be stated; the source code contains no such classes and can only
produce `structError`, `unicodeDecodeError` or `unicodeEncodeError`. -/
inductive PyError where
  | structError
  | unicodeDecodeError
  | unicodeEncodeError
  | malformedHeaderError
  | invalidEncodingError
  | corruptStoreError
  deriving DecidableEq, Repr

deriving instance DecidableEq for Except

/-- Python bytes: a list of byte values. -/
abbrev Bytes := List Nat

/-- Python str: a list of Unicode code points. -/
abbrev PyStr := List Nat

/-- HEADER_SIZE constant from format.py. -/
def HEADER_SIZE : Nat := 12

/-- Packs one unsigned 32-bit integer into 4 bytes (little-endian, see the
module conventions). -/
def pack32 (n : Nat) : Bytes :=
  [n % 256, n / 256 % 256, n / 65536 % 256, n / 16777216 % 256]

/-- Unpacks one 4-byte field produced by `pack32`. -/
def unpack32 (b : Bytes) : Nat :=
  match b with
  | [a, b1, c, d] => a + 256 * b1 + 65536 * c + 16777216 * d
  | _ => 0

/-- Embeds `encode_header` from format.py: `struct.pack("III", timestamp,
key_size, value_size)`.  `struct.pack` raises `struct.error` when a value
does not fit in an unsigned 32-bit field (negative values are not
representable in the `Nat` model). -/
def encode_header (timestamp key_size value_size : Nat) : Except PyError Bytes :=
  if timestamp < 4294967296 ∧ key_size < 4294967296 ∧ value_size < 4294967296 then
    .ok (pack32 timestamp ++ pack32 key_size ++ pack32 value_size)
  else .error .structError

/-- Embeds `decode_header` from format.py: `struct.unpack("III", data)`,
which requires a buffer of exactly 12 bytes and raises `struct.error`
otherwise. -/
def decode_header (data : Bytes) : Except PyError (Nat × Nat × Nat) :=
  if data.length = 12 then
    .ok (unpack32 (data.take 4), unpack32 ((data.drop 4).take 4), unpack32 (data.drop 8))
  else .error .structError

/-- UTF-8 encoding of one code point (1 to 4 bytes). -/
def utf8EncodeChar (c : Nat) : Bytes :=
  if c < 128 then [c]
  else if c < 2048 then [192 + c / 64, 128 + c % 64]
  else if c < 65536 then [224 + c / 4096, 128 + c / 64 % 64, 128 + c % 64]
  else [240 + c / 262144, 128 + c / 4096 % 64, 128 + c / 64 % 64, 128 + c % 64]

/-- Embeds Python `str.encode()`: UTF-8 encoding of the code-point sequence.
Python raises `UnicodeEncodeError` on lone surrogates (code points in
[0xD800, 0xDFFF]); code points above 0x10FFFF cannot occur in a Python
string, so they are rejected the same way in this model. -/
def pyEncode (s : PyStr) : Except PyError Bytes :=
  if s.all (fun c => decide (c < 1114112 ∧ (c < 55296 ∨ 57343 < c))) then
    .ok (s.map utf8EncodeChar).flatten
  else .error .unicodeEncodeError

/-- Strict UTF-8 decoding, as performed by Python `bytes.decode()`: rejects
stray continuation bytes, overlong encodings, surrogates, code points above
0x10FFFF and truncated sequences. -/
def utf8Decode : Bytes → Option PyStr
  | [] => some []
  | b :: rest =>
    if b < 128 then
      (utf8Decode rest).map (b :: ·)
    else if b < 192 then none
    else if b < 224 then
      match rest with
      | b2 :: rest2 =>
        let c := (b - 192) * 64 + (b2 - 128)
        if 128 ≤ b2 ∧ b2 < 192 ∧ 128 ≤ c then (utf8Decode rest2).map (c :: ·)
        else none
      | [] => none
    else if b < 240 then
      match rest with
      | b2 :: b3 :: rest3 =>
        let c := (b - 224) * 4096 + (b2 - 128) * 64 + (b3 - 128)
        if 128 ≤ b2 ∧ b2 < 192 ∧ 128 ≤ b3 ∧ b3 < 192 ∧ 2048 ≤ c ∧ (c < 55296 ∨ 57343 < c) then
          (utf8Decode rest3).map (c :: ·)
        else none
      | _ => none
    else if b < 248 then
      match rest with
      | b2 :: b3 :: b4 :: rest4 =>
        let c := (b - 240) * 262144 + (b2 - 128) * 4096 + (b3 - 128) * 64 + (b4 - 128)
        if 128 ≤ b2 ∧ b2 < 192 ∧ 128 ≤ b3 ∧ b3 < 192 ∧ 128 ≤ b4 ∧ b4 < 192 ∧
            65536 ≤ c ∧ c ≤ 1114111 then
          (utf8Decode rest4).map (c :: ·)
        else none
      | _ => none
    else none

/-- Embeds Python `bytes.decode()`: strict UTF-8, raising
`UnicodeDecodeError` on invalid input. -/
def pyDecode (b : Bytes) : Except PyError PyStr :=
  match utf8Decode b with
  | some s => .ok s
  | none => .error .unicodeDecodeError

/-- Embeds `encode_kv` from format.py.  Note that the header is built from
`len(key)` and `len(value)`, the code-point counts of the Python strings,
while the payload is the UTF-8 byte sequence `key.encode() + value.encode()`.
The returned size is `HEADER_SIZE + len(data)` where `data` is the payload. -/
def encode_kv (timestamp : Nat) (key value : PyStr) : Except PyError (Nat × Bytes) :=
  match encode_header timestamp key.length value.length with
  | .error e => .error e
  | .ok header =>
    match pyEncode key with
    | .error e => .error e
    | .ok kb =>
      match pyEncode value with
      | .error e => .error e
      | .ok vb => .ok (HEADER_SIZE + (kb ++ vb).length, header ++ (kb ++ vb))

/-- Embeds `decode_kv` from format.py: decodes the header from the first 12
bytes, takes `data[HEADER_SIZE : HEADER_SIZE + key_size]` as the key bytes
and `data[HEADER_SIZE + key_size :]` as the value bytes (the declared
`value_size` is never used), and UTF-8-decodes both. -/
def decode_kv (data : Bytes) : Except PyError (Nat × PyStr × PyStr) :=
  match decode_header (data.take HEADER_SIZE) with
  | .error e => .error e
  | .ok (timestamp, key_size, _value_size) =>
    match pyDecode ((data.drop HEADER_SIZE).take key_size) with
    | .error e => .error e
    | .ok key =>
      match pyDecode ((data.drop HEADER_SIZE).drop key_size) with
      | .error e => .error e
      | .ok value => .ok (timestamp, key, value)

/-- Supporting lemma: a successful `decode_header` forces the input length
to be exactly 12. -/
theorem decode_header_ok_length {d : Bytes} {x : Nat × Nat × Nat}
    (h : decode_header d = .ok x) : d.length = 12 := by
  unfold decode_header at h
  split at h
  · assumption
  · exact absurd h (by simp)

/-- Supporting lemma: `unpack32` inverts `pack32` on unsigned 32-bit values. -/
theorem unpack32_pack32 (n : Nat) (h : n < 4294967296) : unpack32 (pack32 n) = n := by
  simp only [pack32, unpack32]
  omega

/-- Supporting lemma: `decode_header` can only fail with `struct.error`. -/
theorem decode_header_error {d : Bytes} {e : PyError}
    (h : decode_header d = .error e) : e = .structError := by
  unfold decode_header at h
  split at h
  · exact absurd h (by simp)
  · simpa using h.symm

/-- Supporting lemma: `pyDecode` can only fail with `UnicodeDecodeError`. -/
theorem pyDecode_error {b : Bytes} {e : PyError}
    (h : pyDecode b = .error e) : e = .unicodeDecodeError := by
  unfold pyDecode at h
  split at h
  · exact absurd h (by simp)
  · simpa using h.symm

/-- Claim C7: for all triples of unsigned 32-bit integers, decoding the
encoded header yields the triple back, and the encoded header is exactly 12
bytes. -/
theorem C7_header_roundtrip (t ks vs : Nat)
    (ht : t < 4294967296) (hk : ks < 4294967296) (hv : vs < 4294967296) :
    encode_header t ks vs = .ok (pack32 t ++ pack32 ks ++ pack32 vs) ∧
    (pack32 t ++ pack32 ks ++ pack32 vs).length = 12 ∧
    decode_header (pack32 t ++ pack32 ks ++ pack32 vs) = .ok (t, ks, vs) := by
  refine ⟨by unfold encode_header; rw [if_pos ⟨ht, hk, hv⟩], by simp [pack32], ?_⟩
  have hd : decode_header (pack32 t ++ pack32 ks ++ pack32 vs) =
      .ok (unpack32 (pack32 t), unpack32 (pack32 ks), unpack32 (pack32 vs)) := rfl
  rw [hd, unpack32_pack32 t ht, unpack32_pack32 ks hk, unpack32_pack32 vs hv]

/-- Witness for C7 at the concrete triple (7, 1, 2). -/
theorem C7_header_roundtrip_witness :
    encode_header 7 1 2 = .ok (pack32 7 ++ pack32 1 ++ pack32 2) ∧
    (pack32 7 ++ pack32 1 ++ pack32 2).length = 12 ∧
    decode_header (pack32 7 ++ pack32 1 ++ pack32 2) = .ok (7, 1, 2) :=
  C7_header_roundtrip 7 1 2 (by decide) (by decide) (by decide)

/-- Claim C9 (amended): given fewer than 12 bytes, decode_header fails with
struct.error, the error the underlying struct.unpack actually raises (there
is no MalformedHeaderError class in the source); it never returns a triple. -/
theorem C9_short_header_fails (d : Bytes) (h : d.length < 12) :
    decode_header d = .error .structError := by
  unfold decode_header
  rw [if_neg (by omega)]

/-- Witness for C9 at the empty input. -/
theorem C9_short_header_fails_witness :
    decode_header ([] : Bytes) = .error .structError :=
  C9_short_header_fails [] (by decide)

/-- Counterexample for C9 as stated: on the empty input decode_header does
not fail with MalformedHeaderError (it fails with struct.error). -/
theorem C9_counterexample :
    decode_header ([] : Bytes) ≠ .error .malformedHeaderError ∧
    decode_header ([] : Bytes) = .error .structError := by
  constructor
  · intro h
    exact absurd h (by unfold decode_header; simp)
  · unfold decode_header
    simp

/-- Claim C1 (code bug): the round-trip property fails for the non-ASCII key
"é" (code point 233).  encode_kv writes key_size = 1 (the code-point count)
while the key payload is the 2-byte UTF-8 sequence [195, 169]; decode_kv then
slices a single byte as the key and fails with UnicodeDecodeError instead of
returning (0, "é", ""). -/
theorem C1_roundtrip_fails_nonascii_key :
    encode_kv 0 [233] [] =
      .ok (14, ([0, 0, 0, 0, 1, 0, 0, 0, 0, 0, 0, 0, 195, 169] : Bytes)) ∧
    decode_kv ([0, 0, 0, 0, 1, 0, 0, 0, 0, 0, 0, 0, 195, 169] : Bytes) =
      .error .unicodeDecodeError := by
  decide

/-- Claim C4 (code bug): for the key "é" (code point 233) the encoded record
declares key_size = 1 in the header while the key payload that follows the
header is 2 bytes long, so the header field is the code-point count, not the
byte length. -/
theorem C4_key_size_not_byte_length :
    encode_kv 0 [233] [] =
      .ok (14, ([0, 0, 0, 0, 1, 0, 0, 0, 0, 0, 0, 0, 195, 169] : Bytes)) ∧
    decode_header (([0, 0, 0, 0, 1, 0, 0, 0, 0, 0, 0, 0, 195, 169] : Bytes).take 12) =
      .ok (0, 1, 0) ∧
    (([0, 0, 0, 0, 1, 0, 0, 0, 0, 0, 0, 0, 195, 169] : Bytes).drop 12).length = 2 ∧
    (1 : Nat) ≠ 2 := by
  decide

/-- Counterexample for C5 as stated: on the 12-byte input whose header
declares key_size = 0 and value_size = 5, zero payload bytes remain (not
0 + 5 = 5), yet decode_kv succeeds with (0, "", "") instead of failing with
InvalidEncodingError. -/
theorem C5_counterexample :
    decode_header (([0, 0, 0, 0, 0, 0, 0, 0, 5, 0, 0, 0] : Bytes).take 12) =
      .ok (0, 0, 5) ∧
    ([0, 0, 0, 0, 0, 0, 0, 0, 5, 0, 0, 0] : Bytes).length - 12 ≠ 0 + 5 ∧
    decode_kv ([0, 0, 0, 0, 0, 0, 0, 0, 5, 0, 0, 0] : Bytes) = .ok (0, [], []) := by
  decide

/-- Claim C5 (amended): decode_kv performs no length validation at all.
Whenever the first 12 bytes decode as a header, it takes bytes
12 .. 12 + key_size as the key and every remaining byte as the value,
ignoring value_size; it succeeds whenever both slices are valid UTF-8 — even
when the bytes after the header do not total key_size + value_size — and it
never fails with InvalidEncodingError (invalid UTF-8 raises
UnicodeDecodeError, short headers raise struct.error). -/
theorem C5_decode_kv_no_length_check :
    (∀ (data : Bytes) (t ks vs : Nat) (k v : PyStr),
        decode_header (data.take 12) = .ok (t, ks, vs) →
        utf8Decode ((data.drop 12).take ks) = some k →
        utf8Decode ((data.drop 12).drop ks) = some v →
        decode_kv data = .ok (t, k, v)) ∧
    (∀ data : Bytes, decode_kv data ≠ .error .invalidEncodingError) := by
  constructor
  · intro data t ks vs k v h1 h2 h3
    unfold decode_kv HEADER_SIZE
    rw [h1]
    simp only [pyDecode, h2, h3]
  · intro data h
    unfold decode_kv at h
    split at h
    · rename_i e he
      have hse := decode_header_error he
      subst hse
      exact absurd h (by simp)
    · split at h
      · rename_i e he
        have hse := pyDecode_error he
        subst hse
        exact absurd h (by simp)
      · split at h
        · rename_i e he
          have hse := pyDecode_error he
          subst hse
          exact absurd h (by simp)
        · exact absurd h (by simp)

/-- Witness for C5 on a record whose payload is 1 byte though the header
declares key_size + value_size = 4: decode_kv succeeds anyway. -/
theorem C5_decode_kv_no_length_check_witness :
    decode_kv ([7, 0, 0, 0, 1, 0, 0, 0, 3, 0, 0, 0, 97] : Bytes) = .ok (7, [97], []) :=
  C5_decode_kv_no_length_check.1 [7, 0, 0, 0, 1, 0, 0, 0, 3, 0, 0, 0, 97] 7 1 3 [97] []
    (by decide) (by decide) (by decide)

/-- KeyDir from disk_store.py: a Python dict from key to
(value_pos, value_sz), modelled as an association list in insertion order. -/
abbrev KeyDir := List (PyStr × Nat × Nat)

/-- Lookup in the KeyDir (Python `key_dir[key]` / `key in key_dir`). -/
def lookupKD : KeyDir → PyStr → Option (Nat × Nat)
  | [], _ => none
  | e :: rest, k => if e.1 = k then some e.2 else lookupKD rest k

/-- Assignment `key_dir[key] = v`: replaces the entry in place when the key
is present, otherwise appends it, as a Python dict does. -/
def insertKD : KeyDir → PyStr → Nat × Nat → KeyDir
  | [], k, v => [(k, v)]
  | e :: rest, k, v => if e.1 = k then (k, v) :: rest else e :: insertKD rest k v

/-- State of an open DiskStorage: the bytes of the backing file and the
in-memory KeyDir.  The file cursor is not part of the state: the code keeps
it at end-of-file between operations (it reseeks after every read detour),
so reads are modelled as pure slices at absolute offsets. -/
structure DiskStorage where
  file : Bytes
  key_dir : KeyDir
  deriving DecidableEq, Repr

/-- Embeds the startup-scan loop of `DiskStorage.__init__` (disk_store.py
lines 70-79).  `pos` is the file cursor (`self.file.tell()`), which advances
by the number of bytes actually read; `bytesRead` is the running counter
`bytes_read`, which advances by the full claimed record size
`HEADER_SIZE + key_size + value_size`; the loop stops when `bytes_read`
equals the file size.  `file.read(n)` at position `pos` returns
`(file.drop pos).take n` (fewer than `n` bytes near end-of-file), and the
record is re-read from the record start after the `seek(-HEADER_SIZE, 1)`. -/
def scanLoop (file : Bytes) (pos bytesRead : Nat) (kd : KeyDir) :
    Except PyError KeyDir :=
  if bytesRead = file.length then .ok kd
  else
    match hh : decode_header ((file.drop pos).take HEADER_SIZE) with
    | .error e => .error e
    | .ok (_t, ks, vs) =>
      match decode_kv ((file.drop pos).take (HEADER_SIZE + ks + vs)) with
      | .error e => .error e
      | .ok (_, key, _) =>
        scanLoop file (pos + ((file.drop pos).take (HEADER_SIZE + ks + vs)).length)
          (bytesRead + (HEADER_SIZE + ks + vs))
          (insertKD kd key
            (pos + ((file.drop pos).take (HEADER_SIZE + ks + vs)).length - vs, vs))
termination_by file.length - pos
decreasing_by
  have h12 : ((file.drop pos).take HEADER_SIZE).length = 12 := decode_header_ok_length hh
  simp only [List.length_take, List.length_drop, HEADER_SIZE] at h12 ⊢
  omega

/-- Embeds `DiskStorage.__init__` (open): scans the existing file bytes to
rebuild the KeyDir, leaving the cursor at end-of-file.  An empty file skips
the loop, which the zero-iteration `scanLoop` reproduces. -/
def openStore (file : Bytes) : Except PyError DiskStorage :=
  match scanLoop file 0 0 [] with
  | .error e => .error e
  | .ok kd => .ok { file := file, key_dir := kd }

/-- Embeds `DiskStorage.set` (disk_store.py lines 82-87).  The timestamp
`int(time.time())` is an external input and is passed as a parameter.  The
KeyDir entry is `(tell + sz - len(value), len(value))` with the cursor
`tell` at end-of-file, computed and stored before the bytes are appended. -/
def DiskStorage.set (s : DiskStorage) (timestamp : Nat) (key value : PyStr) :
    Except PyError DiskStorage :=
  match encode_kv timestamp key value with
  | .error e => .error e
  | .ok (sz, data) =>
    .ok { file := s.file ++ data,
          key_dir := insertKD s.key_dir key (s.file.length + sz - value.length, value.length) }

/-- Embeds `DiskStorage.set` when the final `self.file.write(data)` raises:
the statement on lines 84-86 has already replaced the KeyDir entry, so the
resulting state keeps the old file bytes with the new KeyDir entry. -/
def DiskStorage.setWriteRaises (s : DiskStorage) (timestamp : Nat) (key value : PyStr) :
    Except PyError DiskStorage :=
  match encode_kv timestamp key value with
  | .error e => .error e
  | .ok (sz, _data) =>
    .ok { file := s.file,
          key_dir := insertKD s.key_dir key (s.file.length + sz - value.length, value.length) }

/-- Embeds `DiskStorage.get` (disk_store.py lines 89-97).  A missing key
returns the empty string without touching any state; a present key reads
`value_sz` bytes at `value_pos` and UTF-8-decodes them.  The store is
returned alongside the result to make the absence of state change
expressible. -/
def DiskStorage.get (s : DiskStorage) (key : PyStr) :
    Except PyError (PyStr × DiskStorage) :=
  match lookupKD s.key_dir key with
  | some (value_pos, value_sz) =>
    match pyDecode ((s.file.drop value_pos).take value_sz) with
    | .error e => .error e
    | .ok value => .ok (value, s)
  | none => .ok ([], s)

/-- Embeds `DiskStorage.close`: releasing the handle leaves the file bytes
as the only durable state; a later open receives exactly these bytes. -/
def DiskStorage.close (s : DiskStorage) : Bytes :=
  s.file

/-- Supporting lemma: looking up a key right after writing it returns the
entry just written. -/
theorem lookupKD_insertKD_self (kd : KeyDir) (k : PyStr) (v : Nat × Nat) :
    lookupKD (insertKD kd k v) k = some v := by
  induction kd with
  | nil => simp [insertKD, lookupKD]
  | cons e rest ih =>
    by_cases h : e.1 = k
    · simp [insertKD, lookupKD, h]
    · simp [insertKD, lookupKD, h, ih]

/-- Supporting lemma: every code point encodes to at least one byte. -/
theorem utf8EncodeChar_length_pos (c : Nat) : 1 ≤ (utf8EncodeChar c).length := by
  unfold utf8EncodeChar
  repeat' split
  all_goals simp

/-- Supporting lemma: the UTF-8 encoding of a string has at least as many
bytes as the string has code points. -/
theorem length_le_flatten_map (s : List Nat) :
    s.length ≤ ((s.map utf8EncodeChar).flatten).length := by
  induction s with
  | nil => simp
  | cons c rest ih =>
    simp only [List.map_cons, List.flatten_cons, List.length_append, List.length_cons]
    have := utf8EncodeChar_length_pos c
    omega

/-- Supporting lemma: a successful `pyEncode` yields at least one byte per
code point. -/
theorem pyEncode_length {s : PyStr} {b : Bytes} (h : pyEncode s = .ok b) :
    s.length ≤ b.length := by
  unfold pyEncode at h
  split at h
  · have hb : b = (s.map utf8EncodeChar).flatten := by
      simpa using h.symm
    subst hb
    exact length_le_flatten_map s
  · exact absurd h (by simp)

/-- Supporting lemma: inversion of a successful `encode_kv`. -/
theorem encode_kv_ok_inv {t : Nat} {k v : PyStr} {sz : Nat} {data : Bytes}
    (h : encode_kv t k v = .ok (sz, data)) :
    ∃ kb vb, pyEncode k = .ok kb ∧ pyEncode v = .ok vb ∧
      sz = HEADER_SIZE + (kb ++ vb).length ∧
      data = pack32 t ++ pack32 k.length ++ pack32 v.length ++ (kb ++ vb) := by
  unfold encode_kv at h
  split at h
  · exact absurd h (by simp)
  · rename_i header hh
    split at h
    · exact absurd h (by simp)
    · rename_i kb hkb
      split at h
      · exact absurd h (by simp)
      · rename_i vb hvb
        have hh2 : header = pack32 t ++ pack32 k.length ++ pack32 v.length := by
          unfold encode_header at hh
          split at hh
          · simpa using hh.symm
          · exact absurd hh (by simp)
        have hinj := h
        simp only [Except.ok.injEq, Prod.mk.injEq] at hinj
        refine ⟨kb, vb, hkb, hvb, hinj.1.symm, ?_⟩
        rw [← hinj.2, hh2]

/-- Claim C8: for every key absent from the KeyDir, get returns the empty
string and leaves the engine state unchanged. -/
theorem C8_get_missing_returns_empty (s : DiskStorage) (k : PyStr)
    (h : lookupKD s.key_dir k = none) :
    DiskStorage.get s k = .ok ([], s) := by
  unfold DiskStorage.get
  rw [h]

/-- Witness for C8 on a freshly opened engine backed by an empty file. -/
theorem C8_get_missing_returns_empty_witness :
    lookupKD (DiskStorage.mk [] []).key_dir [109] = none ∧
    DiskStorage.get ⟨[], []⟩ [109] = .ok ([], ⟨[], []⟩) :=
  ⟨rfl, C8_get_missing_returns_empty ⟨[], []⟩ [109] rfl⟩

/-- Claim C10: set replaces the KeyDir entry before appending the record
bytes; when the append raises, the KeyDir already holds the new entry,
whose value offset lies strictly past the current end of the file, while the
file bytes are unchanged. -/
theorem C10_set_updates_keydir_before_write (s : DiskStorage) (t : Nat) (k v : PyStr)
    (sz : Nat) (data : Bytes) (h : encode_kv t k v = .ok (sz, data)) :
    DiskStorage.setWriteRaises s t k v =
      .ok ⟨s.file, insertKD s.key_dir k (s.file.length + sz - v.length, v.length)⟩ ∧
    DiskStorage.set s t k v =
      .ok ⟨s.file ++ data, insertKD s.key_dir k (s.file.length + sz - v.length, v.length)⟩ ∧
    lookupKD (insertKD s.key_dir k (s.file.length + sz - v.length, v.length)) k =
      some (s.file.length + sz - v.length, v.length) ∧
    s.file.length < s.file.length + sz - v.length := by
  obtain ⟨kb, vb, hkb, hvb, hsz, _⟩ := encode_kv_ok_inv h
  refine ⟨?_, ?_, lookupKD_insertKD_self _ _ _, ?_⟩
  · unfold DiskStorage.setWriteRaises
    rw [h]
  · unfold DiskStorage.set
    rw [h]
  · have hv := pyEncode_length hvb
    simp only [hsz, HEADER_SIZE, List.length_append]
    omega

/-- Witness for C10 at a concrete write on an engine with one byte of file
content. -/
theorem C10_set_updates_keydir_before_write_witness :
    DiskStorage.setWriteRaises ⟨[7], []⟩ 0 [97] [98] =
      .ok ⟨[7], insertKD [] [97] ((1 : Nat) + 14 - 1, 1)⟩ ∧
    DiskStorage.set ⟨[7], []⟩ 0 [97] [98] =
      .ok ⟨[7] ++ [0, 0, 0, 0, 1, 0, 0, 0, 1, 0, 0, 0, 97, 98],
           insertKD [] [97] ((1 : Nat) + 14 - 1, 1)⟩ ∧
    lookupKD (insertKD [] [97] ((1 : Nat) + 14 - 1, 1)) [97] = some (1 + 14 - 1, 1) ∧
    (1 : Nat) < 1 + 14 - 1 := by
  have := C10_set_updates_keydir_before_write ⟨[7], []⟩ 0 [97] [98] 14
    [0, 0, 0, 0, 1, 0, 0, 0, 1, 0, 0, 0, 97, 98] (by decide)
  simpa using this

/-- Supporting lemma: closed form of a successful `encode_kv`. -/
theorem encode_kv_eq (t : Nat) (ht : t < 4294967296) (k v : PyStr) (kb vb : Bytes)
    (hk : pyEncode k = .ok kb) (hv : pyEncode v = .ok vb)
    (hkl : k.length < 4294967296) (hvl : v.length < 4294967296) :
    encode_kv t k v = .ok (HEADER_SIZE + (kb ++ vb).length,
      pack32 t ++ pack32 k.length ++ pack32 v.length ++ (kb ++ vb)) := by
  unfold encode_kv encode_header
  rw [if_pos ⟨ht, hkl, hvl⟩, hk, hv]

/-- Supporting lemma: closed form of a successful `DiskStorage.set`, with
the stored value offset given in any arithmetically equal form. -/
theorem set_eq (s : DiskStorage) (t : Nat) (k v : PyStr) (sz : Nat) (data : Bytes)
    (h : encode_kv t k v = .ok (sz, data)) (vp : Nat)
    (hvp : vp = s.file.length + sz - v.length) :
    DiskStorage.set s t k v =
      .ok ⟨s.file ++ data, insertKD s.key_dir k (vp, v.length)⟩ := by
  subst hvp
  unfold DiskStorage.set
  rw [h]

/-- Supporting lemma: closed form of a successful `DiskStorage.get` on a
present key. -/
theorem get_eq (s : DiskStorage) (k : PyStr) (vp vs : Nat)
    (h : lookupKD s.key_dir k = some (vp, vs)) (v : PyStr)
    (hv : pyDecode ((s.file.drop vp).take vs) = .ok v) :
    DiskStorage.get s k = .ok (v, s) := by
  unfold DiskStorage.get
  rw [h]
  simp only [hv]

/-- Claim C3: on any open engine, set("a","1") then set("a","2") makes
get("a") return "2"; the file after the second set is the file after the
first set plus exactly the second record's encoded bytes, whose length is
the size encode_kv reported, and no earlier byte is removed or rewritten. -/
theorem C3_last_write_wins (s : DiskStorage) (t1 t2 : Nat)
    (h1 : t1 < 4294967296) (h2 : t2 < 4294967296) :
    ∃ (s1 s2 : DiskStorage) (sz2 : Nat) (d2 : Bytes),
      DiskStorage.set s t1 [97] [49] = .ok s1 ∧
      DiskStorage.set s1 t2 [97] [50] = .ok s2 ∧
      encode_kv t2 [97] [50] = .ok (sz2, d2) ∧
      s2.file = s1.file ++ d2 ∧
      s2.file.length = s1.file.length + sz2 ∧
      DiskStorage.get s2 [97] = .ok ([50], s2) := by
  have e1 := encode_kv_eq t1 h1 [97] [49] [97] [49] rfl rfl (by norm_num) (by norm_num)
  have e2 := encode_kv_eq t2 h2 [97] [50] [97] [50] rfl rfl (by norm_num) (by norm_num)
  have hs1 : DiskStorage.set s t1 [97] [49] = .ok
      ⟨s.file ++ (pack32 t1 ++ pack32 1 ++ pack32 1 ++ [97, 49]),
       insertKD s.key_dir [97] (s.file.length + 13, 1)⟩ :=
    set_eq s t1 [97] [49] _ _ e1 (s.file.length + 13)
      (by simp only [HEADER_SIZE, List.length_append, List.length_cons, List.length_nil]; omega)
  have hs2 : DiskStorage.set
      ⟨s.file ++ (pack32 t1 ++ pack32 1 ++ pack32 1 ++ [97, 49]),
       insertKD s.key_dir [97] (s.file.length + 13, 1)⟩ t2 [97] [50] = .ok
      ⟨(s.file ++ (pack32 t1 ++ pack32 1 ++ pack32 1 ++ [97, 49])) ++
         (pack32 t2 ++ pack32 1 ++ pack32 1 ++ [97, 50]),
       insertKD (insertKD s.key_dir [97] (s.file.length + 13, 1)) [97]
         ((s.file ++ (pack32 t1 ++ pack32 1 ++ pack32 1 ++ [97, 49])).length + 13, 1)⟩ :=
    set_eq _ t2 [97] [50] _ _ e2 _
      (by simp only [HEADER_SIZE, List.length_append, List.length_cons, List.length_nil]; omega)
  have hget : DiskStorage.get
      ⟨(s.file ++ (pack32 t1 ++ pack32 1 ++ pack32 1 ++ [97, 49])) ++
         (pack32 t2 ++ pack32 1 ++ pack32 1 ++ [97, 50]),
       insertKD (insertKD s.key_dir [97] (s.file.length + 13, 1)) [97]
         ((s.file ++ (pack32 t1 ++ pack32 1 ++ pack32 1 ++ [97, 49])).length + 13, 1)⟩ [97] =
      .ok ([50], ⟨(s.file ++ (pack32 t1 ++ pack32 1 ++ pack32 1 ++ [97, 49])) ++
         (pack32 t2 ++ pack32 1 ++ pack32 1 ++ [97, 50]),
       insertKD (insertKD s.key_dir [97] (s.file.length + 13, 1)) [97]
         ((s.file ++ (pack32 t1 ++ pack32 1 ++ pack32 1 ++ [97, 49])).length + 13, 1)⟩) :=
    get_eq _ [97] _ 1 (lookupKD_insertKD_self _ _ _) [50]
      (by rw [List.drop_append]; rfl)
  refine ⟨_, _, _, _, hs1, hs2, e2, rfl, ?_, hget⟩
  simp only [HEADER_SIZE, pack32, List.length_append, List.length_cons, List.length_nil]
  try omega

/-- Witness for C3 on a fresh engine with timestamps 5 and 6. -/
theorem C3_last_write_wins_witness :
    ∃ (s1 s2 : DiskStorage) (sz2 : Nat) (d2 : Bytes),
      DiskStorage.set ⟨[], []⟩ 5 [97] [49] = .ok s1 ∧
      DiskStorage.set s1 6 [97] [50] = .ok s2 ∧
      encode_kv 6 [97] [50] = .ok (sz2, d2) ∧
      s2.file = s1.file ++ d2 ∧
      s2.file.length = s1.file.length + sz2 ∧
      DiskStorage.get s2 [97] = .ok ([50], s2) :=
  C3_last_write_wins ⟨[], []⟩ 5 6 (by norm_num) (by norm_num)

/-- Supporting lemma: the scan loop stops successfully once the running
byte counter equals the file size. -/
theorem scanLoop_done (file : Bytes) (pos br : Nat) (kd : KeyDir)
    (h : br = file.length) : scanLoop file pos br kd = .ok kd := by
  rw [scanLoop, if_pos h]

/-- Supporting lemma: one iteration of the scan loop when the header read
fails to decode. -/
theorem scanLoop_step_err (file : Bytes) (pos br : Nat) (kd : KeyDir)
    (hbr : br ≠ file.length) (e : PyError)
    (hh : decode_header ((file.drop pos).take HEADER_SIZE) = .error e) :
    scanLoop file pos br kd = .error e := by
  rw [scanLoop, if_neg hbr]
  split
  · rename_i e2 he
    rw [hh] at he
    cases he
    rfl
  · rename_i t2 ks2 vs2 hh2
    rw [hh] at hh2
    cases hh2

/-- Supporting lemma: one iteration of the scan loop when the header read
decodes. -/
theorem scanLoop_step (file : Bytes) (pos br : Nat) (kd : KeyDir)
    (hbr : br ≠ file.length) (t ks vs : Nat)
    (hh : decode_header ((file.drop pos).take HEADER_SIZE) = .ok (t, ks, vs)) :
    scanLoop file pos br kd =
      match decode_kv ((file.drop pos).take (HEADER_SIZE + ks + vs)) with
      | .error e => .error e
      | .ok (_, key, _) =>
        scanLoop file (pos + ((file.drop pos).take (HEADER_SIZE + ks + vs)).length)
          (br + (HEADER_SIZE + ks + vs))
          (insertKD kd key
            (pos + ((file.drop pos).take (HEADER_SIZE + ks + vs)).length - vs, vs)) := by
  rw [scanLoop, if_neg hbr]
  split
  · rename_i e2 he
    rw [hh] at he
    cases he
  · rename_i t2 ks2 vs2 hh2
    rw [hh] at hh2
    injection hh2 with hp
    injection hp with h1 hp2
    injection hp2 with h2 h3
    subst h2
    subst h3
    rfl

/-- Supporting lemma: a slice that lies entirely inside `F` is unchanged
when `F` is extended on the right. -/
theorem slice_stable (F ext : Bytes) (pos n : Nat) (h : pos + n ≤ F.length) :
    ((F ++ ext).drop pos).take n = (F.drop pos).take n := by
  rw [List.drop_append_eq_append_drop]
  have h1 : pos - F.length = 0 := by omega
  rw [h1, List.drop_zero, List.take_append_eq_append_take]
  have h2 : n - (F.drop pos).length = 0 := by
    rw [List.length_drop]
    omega
  rw [h2, List.take_zero, List.append_nil]

/-- Supporting lemma: when the scan loop ends successfully, the running byte
counter never exceeded the file size (an iteration that overshoots keeps the
loop condition true forever and dies on an empty header read, so success
implies the counter stayed within bounds). -/
theorem scan_ok_br_aux (n : Nat) : ∀ (F : Bytes) (pos br : Nat) (kd kd2 : KeyDir),
    F.length - pos ≤ n → scanLoop F pos br kd = .ok kd2 → br ≤ F.length := by
  induction n with
  | zero =>
    intro F pos br kd kd2 hn h
    by_cases hbr : br = F.length
    · omega
    · cases hdh : decode_header ((F.drop pos).take HEADER_SIZE) with
      | error e =>
        rw [scanLoop_step_err F pos br kd hbr e hdh] at h
        cases h
      | ok x =>
        obtain ⟨t, ks, vs⟩ := x
        have h12 := decode_header_ok_length hdh
        rw [List.length_take, List.length_drop] at h12
        omega
  | succ n ih =>
    intro F pos br kd kd2 hn h
    by_cases hbr : br = F.length
    · omega
    · cases hdh : decode_header ((F.drop pos).take HEADER_SIZE) with
      | error e =>
        rw [scanLoop_step_err F pos br kd hbr e hdh] at h
        cases h
      | ok x =>
        obtain ⟨t, ks, vs⟩ := x
        have h12 := decode_header_ok_length hdh
        rw [List.length_take, List.length_drop] at h12
        have hsz : HEADER_SIZE = 12 := rfl
        rw [scanLoop_step F pos br kd hbr t ks vs hdh] at h
        cases hkv : decode_kv ((F.drop pos).take (HEADER_SIZE + ks + vs)) with
        | error e =>
          rw [hkv] at h
          cases h
        | ok y =>
          obtain ⟨tt, key, vv⟩ := y
          rw [hkv] at h
          have hnext := ih F (pos + ((F.drop pos).take (HEADER_SIZE + ks + vs)).length)
            (br + (HEADER_SIZE + ks + vs)) _ kd2 ?_ h
          · omega
          · rw [List.length_take, List.length_drop]
            omega

/-- Supporting lemma: packaged form of `scan_ok_br_aux`. -/
theorem scan_ok_br {F : Bytes} {pos br : Nat} {kd kd2 : KeyDir}
    (h : scanLoop F pos br kd = .ok kd2) : br ≤ F.length :=
  scan_ok_br_aux (F.length - pos) F pos br kd kd2 le_rfl h

/-- Supporting lemma: a file whose scan succeeds is scanned identically as a
left part of a longer file: the loop walks the same records and reaches the
end of the original file with the same KeyDir, because a successful scan
never reads past the bytes it accounts for. -/
theorem scan_extend_aux (n : Nat) : ∀ (F ext : Bytes) (pos : Nat) (kd kd2 : KeyDir),
    F.length - pos ≤ n → pos ≤ F.length → scanLoop F pos pos kd = .ok kd2 →
    scanLoop (F ++ ext) pos pos kd = scanLoop (F ++ ext) F.length F.length kd2 := by
  induction n with
  | zero =>
    intro F ext pos kd kd2 hn hpos h
    have hpe : pos = F.length := by omega
    subst hpe
    have h2 := (scanLoop_done F F.length F.length kd rfl).symm.trans h
    injection h2 with h3
    subst h3
    rfl
  | succ n ih =>
    intro F ext pos kd kd2 hn hpos h
    by_cases hbr : pos = F.length
    · subst hbr
      have h2 := (scanLoop_done F F.length F.length kd rfl).symm.trans h
      injection h2 with h3
      subst h3
      rfl
    · have hsz : HEADER_SIZE = 12 := rfl
      cases hdh : decode_header ((F.drop pos).take HEADER_SIZE) with
      | error e =>
        rw [scanLoop_step_err F pos pos kd hbr e hdh] at h
        cases h
      | ok x =>
        obtain ⟨t, ks, vs⟩ := x
        have h12 := decode_header_ok_length hdh
        rw [List.length_take, List.length_drop] at h12
        rw [scanLoop_step F pos pos kd hbr t ks vs hdh] at h
        cases hkv : decode_kv ((F.drop pos).take (HEADER_SIZE + ks + vs)) with
        | error e =>
          rw [hkv] at h
          cases h
        | ok y =>
          obtain ⟨tt, key, vv⟩ := y
          simp only [hkv] at h
          have hbrle : pos + (HEADER_SIZE + ks + vs) ≤ F.length := scan_ok_br h
          have hDlen : ((F.drop pos).take (HEADER_SIZE + ks + vs)).length =
              HEADER_SIZE + ks + vs := by
            rw [List.length_take, List.length_drop]
            omega
          rw [hDlen] at h
          have hbr2 : pos ≠ (F ++ ext).length := by
            rw [List.length_append]
            omega
          have hdh2 : decode_header (((F ++ ext).drop pos).take HEADER_SIZE) = .ok (t, ks, vs) := by
            rw [slice_stable F ext pos HEADER_SIZE (by omega)]
            exact hdh
          rw [scanLoop_step (F ++ ext) pos pos kd hbr2 t ks vs hdh2]
          rw [slice_stable F ext pos (HEADER_SIZE + ks + vs) (by omega)]
          simp only [hkv, hDlen]
          exact ih F ext (pos + (HEADER_SIZE + ks + vs)) _ kd2 (by omega) (by omega) h

/-- Supporting lemma: packaged form of `scan_extend_aux` starting from the
beginning of the file. -/
theorem scan_extend {F : Bytes} {kd2 : KeyDir} (ext : Bytes)
    (h : scanLoop F 0 0 [] = .ok kd2) :
    scanLoop (F ++ ext) 0 0 [] = scanLoop (F ++ ext) F.length F.length kd2 :=
  scan_extend_aux F.length F ext 0 [] kd2 (by omega) (Nat.zero_le _) h

/-- Claim C2: on an engine whose file bytes scan successfully, set("x","y")
followed by close and a fresh open on the same bytes yields an engine whose
get("x") returns "y": the startup scan rebuilds the KeyDir from the file
bytes alone. -/
theorem C2_persistence_across_reopen (s : DiskStorage) (t : Nat) (kd0 : KeyDir)
    (ht : t < 4294967296) (hscan : scanLoop s.file 0 0 [] = .ok kd0) :
    ∃ (s1 s2 : DiskStorage),
      DiskStorage.set s t [120] [121] = .ok s1 ∧
      openStore (DiskStorage.close s1) = .ok s2 ∧
      DiskStorage.get s2 [120] = .ok ([121], s2) := by
  have e1 := encode_kv_eq t ht [120] [121] [120] [121] rfl rfl (by norm_num) (by norm_num)
  have hs1 : DiskStorage.set s t [120] [121] = .ok
      ⟨s.file ++ (pack32 t ++ pack32 1 ++ pack32 1 ++ [120, 121]),
       insertKD s.key_dir [120] (s.file.length + 13, 1)⟩ :=
    set_eq s t [120] [121] _ _ e1 (s.file.length + 13)
      (by simp only [HEADER_SIZE, List.length_append, List.length_cons, List.length_nil]; omega)
  have hdh : decode_header
      (((s.file ++ (pack32 t ++ pack32 1 ++ pack32 1 ++ [120, 121])).drop
        s.file.length).take HEADER_SIZE) = .ok (t, 1, 1) := by
    rw [List.drop_left]
    have h2 : decode_header
        ((pack32 t ++ pack32 1 ++ pack32 1 ++ [120, 121]).take HEADER_SIZE) =
        .ok (unpack32 (pack32 t), unpack32 (pack32 1), unpack32 (pack32 1)) := rfl
    rw [h2, unpack32_pack32 t ht]
    rfl
  have hbr0 : s.file.length ≠
      (s.file ++ (pack32 t ++ pack32 1 ++ pack32 1 ++ [120, 121])).length := by
    simp only [List.length_append, pack32, List.length_cons, List.length_nil]
    omega
  have hdkv : decode_kv
      ((pack32 t ++ pack32 1 ++ pack32 1 ++ [120, 121]).take (HEADER_SIZE + 1 + 1)) =
      .ok (t, [120], [121]) := by
    have h3 : (pack32 t ++ pack32 1 ++ pack32 1 ++ [120, 121]).take (HEADER_SIZE + 1 + 1) =
        pack32 t ++ pack32 1 ++ pack32 1 ++ [120, 121] := rfl
    rw [h3]
    unfold decode_kv
    have h4 : decode_header ((pack32 t ++ pack32 1 ++ pack32 1 ++ [120, 121]).take HEADER_SIZE) =
        .ok (unpack32 (pack32 t), unpack32 (pack32 1), unpack32 (pack32 1)) := rfl
    rw [h4, unpack32_pack32 t ht]
    rfl
  have hscan2 : scanLoop (s.file ++ (pack32 t ++ pack32 1 ++ pack32 1 ++ [120, 121])) 0 0 [] =
      .ok (insertKD kd0 [120] (s.file.length + 13, 1)) := by
    rw [scan_extend _ hscan]
    rw [scanLoop_step _ _ _ _ hbr0 t 1 1 hdh]
    simp only [List.drop_left]
    simp only [hdkv]
    simp only [show ((pack32 t ++ pack32 1 ++ pack32 1 ++ [120, 121]).take
      (HEADER_SIZE + 1 + 1)).length = 14 from rfl]
    rw [scanLoop_done _ _ _ _
      (by simp only [List.length_append, pack32, List.length_cons, List.length_nil,
        HEADER_SIZE]; try omega)]
    have harith : s.file.length + 14 - 1 = s.file.length + 13 := by omega
    rw [harith]
  have hopen : openStore (s.file ++ (pack32 t ++ pack32 1 ++ pack32 1 ++ [120, 121])) =
      .ok ⟨s.file ++ (pack32 t ++ pack32 1 ++ pack32 1 ++ [120, 121]),
           insertKD kd0 [120] (s.file.length + 13, 1)⟩ := by
    unfold openStore
    rw [hscan2]
  have hget : DiskStorage.get
      ⟨s.file ++ (pack32 t ++ pack32 1 ++ pack32 1 ++ [120, 121]),
       insertKD kd0 [120] (s.file.length + 13, 1)⟩ [120] =
      .ok ([121], ⟨s.file ++ (pack32 t ++ pack32 1 ++ pack32 1 ++ [120, 121]),
           insertKD kd0 [120] (s.file.length + 13, 1)⟩) :=
    get_eq _ [120] _ 1 (lookupKD_insertKD_self _ _ _) [121]
      (by rw [List.drop_append]; rfl)
  exact ⟨_, _, hs1, hopen, hget⟩

/-- Witness for C2 on a fresh engine with timestamp 9. -/
theorem C2_persistence_across_reopen_witness :
    ∃ (s1 s2 : DiskStorage),
      DiskStorage.set ⟨[], []⟩ 9 [120] [121] = .ok s1 ∧
      openStore (DiskStorage.close s1) = .ok s2 ∧
      DiskStorage.get s2 [120] = .ok ([121], s2) :=
  C2_persistence_across_reopen ⟨[], []⟩ 9 [] (by norm_num) (scanLoop_done [] 0 0 [] rfl)

/-- Well-formed on-disk record: its first 12 bytes decode as a header whose
declared sizes account for exactly the remaining bytes, and the whole
record decodes. -/
def WFRecord (r : Bytes) : Prop :=
  ∃ t ks vs, decode_header (r.take HEADER_SIZE) = .ok (t, ks, vs) ∧
    r.length = HEADER_SIZE + ks + vs ∧
    ∃ x, decode_kv r = .ok x

/-- Supporting lemma: when the bytes from `pos` to the end of the file are a
proper nonempty front part of a well-formed record, the scan loop fails: a
short header read dies at once; otherwise the loop reads a short record,
overshoots its byte counter past the file size, and the next header read at
end-of-file gets zero bytes and dies. -/
theorem scan_truncated (file : Bytes) (pos : Nat) (kd : KeyDir) (r : Bytes) (m : Nat)
    (hWF : WFRecord r) (hm1 : 1 ≤ m) (hm2 : m < r.length)
    (hpos : pos ≤ file.length) (hdrop : file.drop pos = r.take m) :
    ∃ e, scanLoop file pos pos kd = .error e := by
  obtain ⟨t, ks, vs, hdh, hlen, _, hkv⟩ := hWF
  have hH : HEADER_SIZE = 12 := rfl
  have hfl : file.length = pos + m := by
    have hc := congrArg List.length hdrop
    rw [List.length_drop, List.length_take] at hc
    omega
  have hbr : pos ≠ file.length := by omega
  by_cases hm12 : m < HEADER_SIZE
  · have hsl : (file.drop pos).take HEADER_SIZE = r.take m := by
      rw [hdrop, List.take_take]
      congr 1
      omega
    have herr : decode_header ((file.drop pos).take HEADER_SIZE) = .error .structError := by
      rw [hsl]
      unfold decode_header
      rw [if_neg]
      rw [List.length_take]
      omega
    exact ⟨.structError, scanLoop_step_err file pos pos kd hbr _ herr⟩
  · have hrtake : (file.drop pos).take HEADER_SIZE = r.take HEADER_SIZE := by
      rw [hdrop, List.take_take]
      congr 1
      omega
    have hdh2 : decode_header ((file.drop pos).take HEADER_SIZE) = .ok (t, ks, vs) := by
      rw [hrtake]
      exact hdh
    have hdata : (file.drop pos).take (HEADER_SIZE + ks + vs) = r.take m := by
      rw [hdrop, List.take_take]
      congr 1
      omega
    rw [scanLoop_step file pos pos kd hbr t ks vs hdh2]
    simp only [hdata]
    cases hkv2 : decode_kv (r.take m) with
    | error e =>
      simp only [hkv2]
      exact ⟨e, rfl⟩
    | ok y =>
      obtain ⟨tt, key, vv⟩ := y
      simp only [hkv2]
      have hml : (r.take m).length = m := by
        rw [List.length_take]
        omega
      rw [hml]
      have hbr2 : pos + m + (HEADER_SIZE + ks + vs) - m ≠ file.length := by omega
      have hbr2b : pos + (HEADER_SIZE + ks + vs) ≠ file.length := by omega
      have hsl2 : (file.drop (pos + m)).take HEADER_SIZE = [] := by
        rw [← hfl, List.drop_length]
        simp
      have herr2 : decode_header ((file.drop (pos + m)).take HEADER_SIZE) =
          .error .structError := by
        rw [hsl2]
        unfold decode_header
        simp
      rw [scanLoop_step_err file (pos + m) (pos + (HEADER_SIZE + ks + vs)) _ hbr2b _ herr2]
      exact ⟨.structError, rfl⟩

/-- Claim C6 (amended): a file made of a front part that scans successfully
followed by a proper nonempty front part of a valid record makes open fail
with an error — a low-level struct.error or UnicodeDecodeError, since the
source defines no CorruptStoreError class — and never yields an engine, so
there is no silent partial load. -/
theorem C6_truncated_open_fails (S r : Bytes) (m : Nat) (kd0 : KeyDir)
    (hscan : scanLoop S 0 0 [] = .ok kd0)
    (hWF : WFRecord r) (hm1 : 1 ≤ m) (hm2 : m < r.length) :
    ∃ e, openStore (S ++ r.take m) = .error e := by
  have hext := scan_extend (r.take m) hscan
  have htail := scan_truncated (S ++ r.take m) S.length kd0 r m hWF hm1 hm2
    (by rw [List.length_append]; omega)
    (List.drop_left S _)
  obtain ⟨e, he⟩ := htail
  refine ⟨e, ?_⟩
  unfold openStore
  rw [hext, he]

/-- Witness for C6: the record for key "a", value "1" truncated to 13 of its
14 bytes makes open fail. -/
theorem C6_truncated_open_fails_witness :
    ∃ e, openStore (([] : Bytes) ++
      (([0, 0, 0, 0, 1, 0, 0, 0, 1, 0, 0, 0, 97, 49] : Bytes).take 13)) = .error e :=
  C6_truncated_open_fails [] [0, 0, 0, 0, 1, 0, 0, 0, 1, 0, 0, 0, 97, 49] 13 []
    (scanLoop_done [] 0 0 [] rfl)
    ⟨0, 1, 1, by decide, by decide, (0, [97], [49]), by decide⟩
    (by decide) (by decide)

/-- Counterexample for C6 as stated: on the truncated file the open fails
with struct.error, not with a CorruptStoreError. -/
theorem C6_counterexample :
    openStore ([0, 0, 0, 0, 1, 0, 0, 0, 1, 0, 0, 0, 97] : Bytes) = .error .structError ∧
    PyError.structError ≠ PyError.corruptStoreError := by
  constructor
  · unfold openStore
    rw [scanLoop_step [0, 0, 0, 0, 1, 0, 0, 0, 1, 0, 0, 0, 97] 0 0 [] (by decide) 0 1 1
      (by decide)]
    simp only [show decode_kv ((([0, 0, 0, 0, 1, 0, 0, 0, 1, 0, 0, 0, 97] : Bytes).drop 0).take
      (HEADER_SIZE + 1 + 1)) = .ok (0, [97], []) from by decide]
    rw [scanLoop_step_err _ _ _ _ (by decide) .structError (by decide)]
  · decide
